import Mathlib

/-!
# Route dispatcher of the orca browser client

Shallow embedding of `orca/server/static/js/routing.js`.

The file registers three handlers on a Grapnel router; each handler renders one
React view into the element with id `content`.  The handlers, `content_div` and
the order of the three registrations are transcribed from the source.  The
routing engine (`grapnel`), the rendering call (`React.render`) and the DOM
lookup (`document.getElementById`) are libraries that routing.js only calls;
their definitions below follow the behaviour the specification gives them and
are marked as such.
-/

namespace Orca

/-! ## Data model -/

/-- A JavaScript value that reaches a view prop: a string, or `undefined`
(what reading a missing property of `req.params` gives). -/
inductive Value where
  | undefined
  | str (s : String)
  deriving DecidableEq, Repr

/-- The three view modules required at the top of routing.js. -/
inductive Component where
  | SchemaApp
  | TableApp
  | ColumnApp
  deriving DecidableEq, Repr

/-- A React element as a JSX tag builds it: the component and its attributes,
in the order they are written. -/
structure Element where
  component : Component
  props : List (String × Value)
  deriving DecidableEq, Repr

/-- The request object a handler receives: the mapping from parameter name to
the string extracted from the path. -/
structure Request where
  params : List (String × String)
  deriving DecidableEq, Repr

/-- Property read `req.params.key`: the bound string, or `undefined` when the
mapping has no such key. -/
def Request.param (req : Request) (key : String) : Value :=
  match req.params.lookup key with
  | some v => Value.str v
  | none => Value.undefined

/-- A DOM node as far as the dispatcher can observe it: its id and the views
currently rendered inside it. -/
structure DomNode where
  id : String
  views : List Element
  deriving DecidableEq, Repr

/-- The document: its nodes in document order. -/
structure Document where
  nodes : List DomNode
  deriving DecidableEq, Repr

/-- The fault raised by a render call whose target container is absent. -/
inductive Fault where
  | targetContainerAbsent
  deriving DecidableEq, Repr

/-! ## Library behaviour (DOM, React, Grapnel) -/

/-- Modelled from the spec: the search behind `document.getElementById`, the
position of the first node carrying the given id. -/
def findNode : List DomNode → String → Option Nat
  | [], _ => none
  | n :: ns, id => if n.id = id then some 0 else (findNode ns id).map (· + 1)

/-- Modelled from the spec: `document.getElementById`, the DOM lookup that
locates the "one DOM attachment point located by a fixed element identifier".
It yields a reference to the node (its position) or null (`none`) when the
document has no element with that id. -/
def Document.getElementById (document : Document) (id : String) : Option Nat :=
  findNode document.nodes id

/-- Modelled from the spec: the effect of one `React.render` call on the
document, the views of the target node replaced by the single rendered view. -/
def mountAt : List DomNode → Nat → Element → List DomNode
  | [], _, _ => []
  | n :: ns, 0, e => { n with views := [e] } :: ns
  | n :: ns, i + 1, e => n :: mountAt ns i e

/-- Modelled from the spec: `React.render(element, container)`, the external
rendering call.  It renders the element into the container, "replacing
whatever was previously rendered there"; with an absent (null) container it
faults, and the fault is "propagated to the hosting environment". -/
def React.render (element : Element) (container : Option Nat) (document : Document) :
    Except Fault Document :=
  match container with
  | none => Except.error Fault.targetContainerAbsent
  | some i => Except.ok { nodes := mountAt document.nodes i element }

/-- The views inside the node a reference points to. -/
def Document.viewsAt (document : Document) (container : Nat) : Option (List Element) :=
  (document.nodes.get? container).map DomNode.views

/-- Modelled from the spec: one piece of a Grapnel route pattern, fixed text or
a named placeholder. -/
inductive Segment where
  | literal (text : List Char)
  | named (key : String)
  deriving DecidableEq, Repr

/-- Modelled from the spec: the path segments Grapnel matches on, a path cut at
every slash. -/
def splitPath : List Char → List (List Char)
  | [] => [[]]
  | c :: cs =>
    if c = '/' then [] :: splitPath cs
    else
      match splitPath cs with
      | [] => [[c]]
      | s :: ss => (c :: s) :: ss

/-- Inverse of `splitPath`, used in proofs only: the pieces glued back
together with a slash between neighbours. -/
def joinPath : List (List Char) → List Char
  | [] => []
  | [p] => p
  | p :: q :: rest => p ++ '/' :: joinPath (q :: rest)

/-- Modelled from the spec: Grapnel reading a route pattern, "a path template
with named placeholders (e.g. `:table`)"; a piece written `:name` is a
placeholder called `name`, any other piece is fixed text. -/
def compilePattern (pattern : String) : List Segment :=
  (splitPath pattern.data).map fun piece =>
    match piece with
    | ':' :: key => Segment.named (String.mk key)
    | text => Segment.literal text

/-- Modelled from the spec: Grapnel matching the pieces of a pattern against
the pieces of a path, binding each placeholder to the path segment at its
position, unchanged.  A placeholder stands for one path segment, which has at
least one character. -/
def matchSegments : List Segment → List (List Char) → Option (List (String × String))
  | [], [] => some []
  | Segment.literal text :: rest, piece :: pieces =>
    if text = piece then matchSegments rest pieces else none
  | Segment.named key :: rest, piece :: pieces =>
    if piece = [] then none
    else (matchSegments rest pieces).map fun ps => (key, String.mk piece) :: ps
  | _, _ => none

/-- Modelled from the spec: one Grapnel registration, the pattern and the
handler to call on a match. -/
structure Route where
  pattern : String
  handler : Request → Document → Except Fault Document

/-- Modelled from the spec: the routing engine (the `grapnel` library), which
holds "an ordered list of (pattern, handler) pairs". -/
structure Grapnel where
  routes : List Route

/-- Modelled from the spec: matching of one route pattern, "a path template
with named placeholders (e.g. `:table`) matched against the current URL"; on a
match the request carries the "named parameters parsed from the matched path
segments", each "forwarded unchanged". -/
def Grapnel.parse (pattern path : String) : Option Request :=
  (matchSegments (compilePattern pattern) (splitPath path.data)).map Request.mk

/-- Modelled from the spec: `router.get(pattern, handler)` appends the
pair to the ordered list of registrations. -/
def Grapnel.get (g : Grapnel) (pattern : String)
    (handler : Request → Document → Except Fault Document) : Grapnel :=
  { routes := g.routes ++ [{ pattern := pattern, handler := handler }] }

/-- Modelled from the spec: the Grapnel registrations whose pattern matches the
path, in registration order, each with the request parsed for it. -/
def Grapnel.matching (g : Grapnel) (path : String) : List (Route × Request) :=
  g.routes.filterMap fun r => (Grapnel.parse r.pattern path).map fun req => (r, req)

/-- Observation on `Grapnel.matching`: the patterns that match a path together
with the parsed requests, which names the handlers one navigation event runs. -/
def Grapnel.fired (g : Grapnel) (path : String) : List (String × Request) :=
  (g.matching path).map fun m => (m.1.pattern, m.2)

/-- Modelled from the spec: Grapnel calling handlers one after the other; a
fault ends the event and is handed on to the caller. -/
def runHandlers : List (Route × Request) → Document → Except Fault Document
  | [], document => Except.ok document
  | (r, req) :: rest, document =>
    match r.handler req document with
    | Except.error f => Except.error f
    | Except.ok document1 => runHandlers rest document1

/-- Modelled from the spec: one navigation event.  The path is the route part of
the current URL as the router receives it, written like the patterns without a
leading slash (the root is the empty path).  The handler of every registration
matching the path is called with its request; "unmatched paths
simply trigger no handler", and nothing catches a handler's fault. -/
def Grapnel.navigate (g : Grapnel) (path : String) (document : Document) :
    Except Fault Document :=
  runHandlers (g.matching path) document

/-- Modelled from the spec: a sequence of navigation events on one page, oldest
first; a fault ends the sequence. -/
def Grapnel.run (g : Grapnel) : List String → Document → Except Fault Document
  | [], document => Except.ok document
  | path :: rest, document =>
    match g.navigate path document with
    | Except.error f => Except.error f
    | Except.ok document1 => Grapnel.run g rest document1

/-! ## routing.js -/

/-- The function `content_div` (routing.js lines 10-12). -/
def content_div (document : Document) : Option Nat :=
  document.getElementById "content"

/-- Handler registered for the pattern `''` (lines 14-16). -/
def schemaHandler (_req : Request) (document : Document) : Except Fault Document :=
  React.render { component := Component.SchemaApp, props := [] } (content_div document) document

/-- Handler registered for `'tables/:table'` (lines 18-21). -/
def tableHandler (req : Request) (document : Document) : Except Fault Document :=
  let table_name := req.param "table"
  React.render { component := Component.TableApp, props := [("table", table_name)] }
    (content_div document) document

/-- Handler registered for `'tables/:table/columns/:column'` (lines 23-28). -/
def columnHandler (req : Request) (document : Document) : Except Fault Document :=
  let table_name := req.param "table"
  let col_name := req.param "column"
  React.render
    { component := Component.ColumnApp, props := [("table", table_name), ("column", col_name)] }
    (content_div document) document

/-- The router of routing.js: a fresh Grapnel with the three registrations in
source order. -/
def router : Grapnel :=
  (((Grapnel.mk []).get "" schemaHandler).get "tables/:table" tableHandler).get
    "tables/:table/columns/:column" columnHandler

/-- The views mounted in the content container, when the container exists. -/
def mounted (document : Document) : Option (List Element) :=
  (content_div document).bind document.viewsAt

/-! ## Lemmas on the path splitter -/

theorem splitPath_ne_nil (s : List Char) : splitPath s ≠ [] := by
  induction s with
  | nil => simp [splitPath]
  | cons c cs ih =>
    unfold splitPath
    split
    · simp
    · split <;> simp

theorem splitPath_of_no_slash (s : List Char) (h : '/' ∉ s) : splitPath s = [s] := by
  induction s with
  | nil => rfl
  | cons c cs ih =>
    have hc : c ≠ '/' := fun e => h (by simp [e])
    have hcs : '/' ∉ cs := fun m => h (List.mem_cons_of_mem _ m)
    simp [splitPath, hc, ih hcs]

theorem splitPath_append_slash (a b : List Char) (h : '/' ∉ a) :
    splitPath (a ++ '/' :: b) = a :: splitPath b := by
  induction a with
  | nil => simp [splitPath]
  | cons c cs ih =>
    have hc : c ≠ '/' := fun e => h (by simp [e])
    have hcs : '/' ∉ cs := fun m => h (List.mem_cons_of_mem _ m)
    simp [splitPath, hc, ih hcs]

theorem joinPath_splitPath (s : List Char) : joinPath (splitPath s) = s := by
  induction s with
  | nil => rfl
  | cons c cs ih =>
    unfold splitPath
    by_cases hc : c = '/'
    · simp only [hc, if_true]
      cases hs : splitPath cs with
      | nil => exact absurd hs (splitPath_ne_nil cs)
      | cons p ps => rw [hs] at ih; simp [joinPath, ih]
    · simp only [hc, if_false]
      cases hs : splitPath cs with
      | nil => exact absurd hs (splitPath_ne_nil cs)
      | cons p ps =>
        rw [hs] at ih
        cases ps with
        | nil => simpa [joinPath] using ih
        | cons q qs => simp only [joinPath] at ih ⊢; simp [ih]

theorem splitPath_pieces_no_slash (s : List Char) : ∀ p ∈ splitPath s, '/' ∉ p := by
  induction s with
  | nil => simp [splitPath]
  | cons c cs ih =>
    unfold splitPath
    by_cases hc : c = '/'
    · simp only [hc, if_true]
      intro p hp
      rcases List.mem_cons.1 hp with rfl | hp
      · simp
      · exact ih p hp
    · simp only [hc, if_false]
      cases hs : splitPath cs with
      | nil => exact absurd hs (splitPath_ne_nil cs)
      | cons q qs =>
        rw [hs] at ih
        intro p hp
        rcases List.mem_cons.1 hp with rfl | hp
        · intro hm
          rcases List.mem_cons.1 hm with e | hm
          · exact hc e.symm
          · exact ih q (List.mem_cons_self _ _) hm
        · exact ih p (List.mem_cons_of_mem _ hp)

/-! ## Lemmas on the document -/

theorem findNode_lt (ns : List DomNode) (id : String) (i : Nat)
    (h : findNode ns id = some i) : i < ns.length := by
  induction ns generalizing i with
  | nil => simp [findNode] at h
  | cons n ns ih =>
    simp only [findNode] at h
    split at h
    · cases h; simp
    · cases hf : findNode ns id with
      | none => simp [hf] at h
      | some j =>
        simp [hf] at h
        subst h
        simpa using ih j hf

theorem findNode_mountAt (ns : List DomNode) (id : String) (i : Nat) (e : Element) :
    findNode (mountAt ns i e) id = findNode ns id := by
  induction ns generalizing i with
  | nil => rfl
  | cons n ns ih =>
    cases i with
    | zero => simp [mountAt, findNode]
    | succ i => simp [mountAt, findNode, ih i]

theorem get?_mountAt_self (ns : List DomNode) (i : Nat) (e : Element) (h : i < ns.length) :
    ((mountAt ns i e).get? i).map DomNode.views = some [e] := by
  induction ns generalizing i with
  | nil => simp at h
  | cons n ns ih =>
    cases i with
    | zero => simp [mountAt]
    | succ i =>
      have h1 : i < ns.length := by simpa using h
      simpa [mountAt] using ih i h1

theorem get?_mountAt_ne (ns : List DomNode) (i j : Nat) (e : Element) (h : j ≠ i) :
    (mountAt ns i e).get? j = ns.get? j := by
  induction ns generalizing i j with
  | nil => rfl
  | cons n ns ih =>
    cases i with
    | zero =>
      cases j with
      | zero => exact absurd rfl h
      | succ j => simp [mountAt]
    | succ i =>
      cases j with
      | zero => simp [mountAt]
      | succ j =>
        have h1 : j ≠ i := fun e1 => h (by rw [e1])
        simpa [mountAt] using ih i j h1

/-- Rendering into an existing container succeeds, leaves the container in
place and puts exactly the rendered element in it. -/
theorem render_present (e : Element) (document : Document) (c : Nat)
    (hc : content_div document = some c) :
    ∃ d, React.render e (content_div document) document = Except.ok d ∧
      content_div d = some c ∧ d.viewsAt c = some [e] ∧
      (∀ j, j ≠ c → d.nodes.get? j = document.nodes.get? j) := by
  refine ⟨{ nodes := mountAt document.nodes c e }, ?_, ?_, ?_, ?_⟩
  · simp [hc, React.render]
  · simpa [content_div, Document.getElementById, findNode_mountAt] using hc
  · have hlt : c < document.nodes.length :=
      findNode_lt _ _ _ (by simpa [content_div, Document.getElementById] using hc)
    simpa [Document.viewsAt] using get?_mountAt_self document.nodes c e hlt
  · intro j hj
    exact get?_mountAt_ne document.nodes c j e hj

/-! ## Lemmas on the three registrations -/

theorem compilePattern_root : compilePattern "" = [Segment.literal []] := by decide

theorem compilePattern_table :
    compilePattern "tables/:table" = [Segment.literal "tables".data, Segment.named "table"] := by
  decide

theorem compilePattern_column :
    compilePattern "tables/:table/columns/:column" =
      [Segment.literal "tables".data, Segment.named "table",
       Segment.literal "columns".data, Segment.named "column"] := by
  decide

theorem router_routes :
    router.routes =
      [{ pattern := "", handler := schemaHandler },
       { pattern := "tables/:table", handler := tableHandler },
       { pattern := "tables/:table/columns/:column", handler := columnHandler }] := rfl

/-- What one of the three patterns can match, read off the pieces of the path. -/
theorem parse_root (path : String) :
    Grapnel.parse "" path = if splitPath path.data = [[]] then some ⟨[]⟩ else none := by
  unfold Grapnel.parse
  rw [compilePattern_root]
  rcases splitPath path.data with _ | ⟨a, _ | ⟨b, rest⟩⟩
  · simp [matchSegments]
  · by_cases ha : a = []
    · simp [matchSegments, ha]
    · have ha1 : ¬ ([] = a) := fun e => ha e.symm
      simp [matchSegments, ha, ha1]
  · by_cases ha : ([] : List Char) = a <;> simp [matchSegments, ha]

theorem parse_root_iff (path : String) (req : Request) :
    Grapnel.parse "" path = some req ↔ splitPath path.data = [[]] ∧ req = ⟨[]⟩ := by
  rw [parse_root]
  by_cases h : splitPath path.data = [[]]
  · simp [h, eq_comm]
  · simp [h]

theorem matchSegments_table_iff (pieces : List (List Char)) (ps : List (String × String)) :
    matchSegments [Segment.literal "tables".data, Segment.named "table"] pieces = some ps ↔
      ∃ t : List Char, t ≠ [] ∧ pieces = ["tables".data, t] ∧ ps = [("table", String.mk t)] := by
  constructor
  · intro h
    rcases pieces with _ | ⟨a, _ | ⟨b, _ | ⟨c, rest⟩⟩⟩
    · simp [matchSegments] at h
    · by_cases ha : "tables".data = a <;> simp [matchSegments, ha] at h
    · by_cases ha : "tables".data = a
      · by_cases hb : b = []
        · simp [matchSegments, ha, hb] at h
        · subst ha
          simp [matchSegments, hb] at h
          exact ⟨b, hb, rfl, h.symm⟩
      · simp [matchSegments, ha] at h
    · by_cases ha : "tables".data = a <;> by_cases hb : b = [] <;>
        simp [matchSegments, ha, hb] at h
  · rintro ⟨t, ht, rfl, rfl⟩
    simp [matchSegments, ht]

theorem matchSegments_column_iff (pieces : List (List Char)) (ps : List (String × String)) :
    matchSegments
        [Segment.literal "tables".data, Segment.named "table",
         Segment.literal "columns".data, Segment.named "column"] pieces = some ps ↔
      ∃ t c : List Char, t ≠ [] ∧ c ≠ [] ∧
        pieces = ["tables".data, t, "columns".data, c] ∧
        ps = [("table", String.mk t), ("column", String.mk c)] := by
  constructor
  · intro h
    rcases pieces with _ | ⟨a, _ | ⟨b, _ | ⟨c, _ | ⟨d, _ | ⟨e, rest⟩⟩⟩⟩⟩
    · simp [matchSegments] at h
    · by_cases ha : "tables".data = a <;> simp [matchSegments, ha] at h
    · by_cases ha : "tables".data = a <;> by_cases hb : b = [] <;>
        simp [matchSegments, ha, hb] at h
    · by_cases ha : "tables".data = a <;> by_cases hb : b = [] <;>
        by_cases hc : "columns".data = c <;> simp [matchSegments, ha, hb, hc] at h
    · by_cases ha : "tables".data = a
      · by_cases hb : b = []
        · simp [matchSegments, ha, hb] at h
        · by_cases hc : "columns".data = c
          · by_cases hd : d = []
            · simp [matchSegments, ha, hb, hc, hd] at h
            · subst ha
              subst hc
              simp [matchSegments, hb, hd] at h
              exact ⟨b, d, hb, hd, rfl, h.symm⟩
          · simp [matchSegments, ha, hb, hc] at h
      · simp [matchSegments, ha] at h
    · by_cases ha : "tables".data = a <;> by_cases hb : b = [] <;>
        by_cases hc : "columns".data = c <;> by_cases hd : d = [] <;>
        simp [matchSegments, ha, hb, hc, hd] at h
  · rintro ⟨t, c, ht, hc, rfl, rfl⟩
    simp [matchSegments, ht, hc]

theorem parse_table_iff (path : String) (req : Request) :
    Grapnel.parse "tables/:table" path = some req ↔
      ∃ t : List Char, t ≠ [] ∧ splitPath path.data = ["tables".data, t] ∧
        req = ⟨[("table", String.mk t)]⟩ := by
  unfold Grapnel.parse
  rw [compilePattern_table]
  constructor
  · intro h
    rcases Option.map_eq_some'.1 h with ⟨ps, hps, rfl⟩
    rcases (matchSegments_table_iff _ _).1 hps with ⟨t, ht, hs, rfl⟩
    exact ⟨t, ht, hs, rfl⟩
  · rintro ⟨t, ht, hs, rfl⟩
    rw [(matchSegments_table_iff _ _).2 ⟨t, ht, hs, rfl⟩]
    rfl

theorem parse_column_iff (path : String) (req : Request) :
    Grapnel.parse "tables/:table/columns/:column" path = some req ↔
      ∃ t c : List Char, t ≠ [] ∧ c ≠ [] ∧
        splitPath path.data = ["tables".data, t, "columns".data, c] ∧
        req = ⟨[("table", String.mk t), ("column", String.mk c)]⟩ := by
  unfold Grapnel.parse
  rw [compilePattern_column]
  constructor
  · intro h
    rcases Option.map_eq_some'.1 h with ⟨ps, hps, rfl⟩
    rcases (matchSegments_column_iff _ _).1 hps with ⟨t, c, ht, hc, hs, rfl⟩
    exact ⟨t, c, ht, hc, hs, rfl⟩
  · rintro ⟨t, c, ht, hc, hs, rfl⟩
    rw [(matchSegments_column_iff _ _).2 ⟨t, c, ht, hc, hs, rfl⟩]
    rfl

/-- The three registrations of routing.js, named for the statements below. -/
theorem matching_unfold (path : String) :
    router.matching path =
      ((Grapnel.parse "" path).map fun req =>
          (({ pattern := "", handler := schemaHandler } : Route), req)).toList ++
      (((Grapnel.parse "tables/:table" path).map fun req =>
          (({ pattern := "tables/:table", handler := tableHandler } : Route), req)).toList ++
       ((Grapnel.parse "tables/:table/columns/:column" path).map fun req =>
          (({ pattern := "tables/:table/columns/:column", handler := columnHandler } : Route),
            req)).toList) := by
  unfold Grapnel.matching
  rw [router_routes]
  cases h1 : Grapnel.parse "" path <;> cases h2 : Grapnel.parse "tables/:table" path <;>
    cases h3 : Grapnel.parse "tables/:table/columns/:column" path <;>
    simp [List.filterMap, h1, h2, h3]

theorem root_excludes_table (path : String) (r1 r2 : Request)
    (h1 : Grapnel.parse "" path = some r1) (h2 : Grapnel.parse "tables/:table" path = some r2) :
    False := by
  rcases (parse_root_iff _ _).1 h1 with ⟨hs, _⟩
  rcases (parse_table_iff _ _).1 h2 with ⟨t, _, hs2, _⟩
  rw [hs] at hs2
  simp at hs2

theorem root_excludes_column (path : String) (r1 r3 : Request)
    (h1 : Grapnel.parse "" path = some r1)
    (h3 : Grapnel.parse "tables/:table/columns/:column" path = some r3) : False := by
  rcases (parse_root_iff _ _).1 h1 with ⟨hs, _⟩
  rcases (parse_column_iff _ _).1 h3 with ⟨t, c, _, _, hs3, _⟩
  rw [hs] at hs3
  simp at hs3

theorem table_excludes_column (path : String) (r2 r3 : Request)
    (h2 : Grapnel.parse "tables/:table" path = some r2)
    (h3 : Grapnel.parse "tables/:table/columns/:column" path = some r3) : False := by
  rcases (parse_table_iff _ _).1 h2 with ⟨t, _, hs2, _⟩
  rcases (parse_column_iff _ _).1 h3 with ⟨u, c, _, _, hs3, _⟩
  rw [hs2] at hs3
  simp at hs3

theorem path_of_pieces_one (path : String) (a : List Char) (h : splitPath path.data = [a]) :
    path = String.mk a := by
  have hj := joinPath_splitPath path.data
  rw [h] at hj
  exact String.ext (by simpa [joinPath] using hj.symm)

theorem path_of_pieces_two (path : String) (t : List Char)
    (h : splitPath path.data = ["tables".data, t]) : path = "tables/" ++ String.mk t := by
  have hj := joinPath_splitPath path.data
  rw [h] at hj
  apply String.ext
  rw [← hj]
  simp [joinPath]

theorem path_of_pieces_four (path : String) (t c : List Char)
    (h : splitPath path.data = ["tables".data, t, "columns".data, c]) :
    path = "tables/" ++ String.mk t ++ "/columns/" ++ String.mk c := by
  have hj := joinPath_splitPath path.data
  rw [h] at hj
  apply String.ext
  rw [← hj]
  simp [joinPath]

/-- Every path falls in exactly one of four classes: it matches no
registration, or it is the root path, a table path or a column path and
matches the one registration of that shape. -/
theorem matching_cases (path : String) :
    router.matching path = [] ∨
    (path = "" ∧
      router.matching path = [({ pattern := "", handler := schemaHandler }, ⟨[]⟩)]) ∨
    (∃ t : String, t ≠ "" ∧ '/' ∉ t.data ∧ path = "tables/" ++ t ∧
      router.matching path =
        [({ pattern := "tables/:table", handler := tableHandler }, ⟨[("table", t)]⟩)]) ∨
    (∃ t c : String, t ≠ "" ∧ c ≠ "" ∧ '/' ∉ t.data ∧ '/' ∉ c.data ∧
      path = "tables/" ++ t ++ "/columns/" ++ c ∧
      router.matching path =
        [({ pattern := "tables/:table/columns/:column", handler := columnHandler },
          ⟨[("table", t), ("column", c)]⟩)]) := by
  rw [matching_unfold]
  cases h1 : Grapnel.parse "" path with
  | some r1 =>
    cases h2 : Grapnel.parse "tables/:table" path with
    | some r2 => exact (root_excludes_table path r1 r2 h1 h2).elim
    | none =>
      cases h3 : Grapnel.parse "tables/:table/columns/:column" path with
      | some r3 => exact (root_excludes_column path r1 r3 h1 h3).elim
      | none =>
        rcases (parse_root_iff _ _).1 h1 with ⟨hs, rfl⟩
        right; left
        exact ⟨path_of_pieces_one path [] hs, by simp⟩
  | none =>
    cases h2 : Grapnel.parse "tables/:table" path with
    | some r2 =>
      cases h3 : Grapnel.parse "tables/:table/columns/:column" path with
      | some r3 => exact (table_excludes_column path r2 r3 h2 h3).elim
      | none =>
        rcases (parse_table_iff _ _).1 h2 with ⟨t, ht, hs, rfl⟩
        right; right; left
        refine ⟨String.mk t, ?_, ?_, path_of_pieces_two path t hs, by simp⟩
        · intro e
          exact ht (congrArg String.data e)
        · have := splitPath_pieces_no_slash path.data t (by rw [hs]; simp)
          simpa using this
    | none =>
      cases h3 : Grapnel.parse "tables/:table/columns/:column" path with
      | some r3 =>
        rcases (parse_column_iff _ _).1 h3 with ⟨t, c, ht, hc, hs, rfl⟩
        right; right; right
        refine ⟨String.mk t, String.mk c, ?_, ?_, ?_, ?_, path_of_pieces_four path t c hs,
          by simp⟩
        · intro e
          exact ht (congrArg String.data e)
        · intro e
          exact hc (congrArg String.data e)
        · have := splitPath_pieces_no_slash path.data t (by rw [hs]; simp)
          simpa using this
        · have := splitPath_pieces_no_slash path.data c (by rw [hs]; simp)
          simpa using this
      | none => left; simp

/-! ## The three shapes of path -/

theorem pieces_table (t : String) (hs : '/' ∉ t.data) :
    splitPath ("tables/" ++ t).data = ["tables".data, t.data] := by
  have h1 : ("tables/" ++ t).data = "tables".data ++ '/' :: t.data := by
    rw [String.data_append]
    rfl
  rw [h1, splitPath_append_slash _ _ (by decide), splitPath_of_no_slash _ hs]

theorem pieces_column (t c : String) (hst : '/' ∉ t.data) (hsc : '/' ∉ c.data) :
    splitPath ("tables/" ++ t ++ "/columns/" ++ c).data =
      ["tables".data, t.data, "columns".data, c.data] := by
  have h1 : ("tables/" ++ t ++ "/columns/" ++ c).data =
      "tables".data ++ '/' :: (t.data ++ '/' :: ("columns".data ++ '/' :: c.data)) := by
    simp only [String.data_append]
    simp
  rw [h1, splitPath_append_slash _ _ (by decide), splitPath_append_slash _ _ hst,
    splitPath_append_slash _ _ (by decide), splitPath_of_no_slash _ hsc]

theorem data_ne_nil (t : String) (ht : t ≠ "") : t.data ≠ [] := by
  intro e
  exact ht (String.ext e)

theorem parse_eq_none_of_pieces_table (pattern path : String) (a b : List Char)
    (hp : pattern = "" ∨ pattern = "tables/:table/columns/:column")
    (hs : splitPath path.data = [a, b]) : Grapnel.parse pattern path = none := by
  cases h : Grapnel.parse pattern path with
  | none => rfl
  | some r =>
    rcases hp with rfl | rfl
    · rcases (parse_root_iff _ _).1 h with ⟨h1, _⟩
      rw [hs] at h1
      simp at h1
    · rcases (parse_column_iff _ _).1 h with ⟨t, c, _, _, h1, _⟩
      rw [hs] at h1
      simp at h1

theorem parse_eq_none_of_pieces_column (pattern path : String) (a b c d : List Char)
    (hp : pattern = "" ∨ pattern = "tables/:table")
    (hs : splitPath path.data = [a, b, c, d]) : Grapnel.parse pattern path = none := by
  cases h : Grapnel.parse pattern path with
  | none => rfl
  | some r =>
    rcases hp with rfl | rfl
    · rcases (parse_root_iff _ _).1 h with ⟨h1, _⟩
      rw [hs] at h1
      simp at h1
    · rcases (parse_table_iff _ _).1 h with ⟨t, _, h1, _⟩
      rw [hs] at h1
      simp at h1

theorem matching_root :
    router.matching "" = [({ pattern := "", handler := schemaHandler }, ⟨[]⟩)] := by
  rw [matching_unfold]
  have h1 : Grapnel.parse "" "" = some ⟨[]⟩ := by decide
  have h2 : Grapnel.parse "tables/:table" "" = none := by decide
  have h3 : Grapnel.parse "tables/:table/columns/:column" "" = none := by decide
  simp [h1, h2, h3]

theorem matching_table (t : String) (ht : t ≠ "") (hs : '/' ∉ t.data) :
    router.matching ("tables/" ++ t) =
      [({ pattern := "tables/:table", handler := tableHandler }, ⟨[("table", t)]⟩)] := by
  have hp := pieces_table t hs
  rw [matching_unfold]
  have h1 := parse_eq_none_of_pieces_table "" _ _ _ (Or.inl rfl) hp
  have h3 := parse_eq_none_of_pieces_table "tables/:table/columns/:column" _ _ _
    (Or.inr rfl) hp
  have h2 : Grapnel.parse "tables/:table" ("tables/" ++ t) = some ⟨[("table", t)]⟩ :=
    (parse_table_iff _ _).2 ⟨t.data, data_ne_nil t ht, hp, rfl⟩
  simp [h1, h2, h3]

theorem matching_column (t c : String) (ht : t ≠ "") (hc : c ≠ "")
    (hst : '/' ∉ t.data) (hsc : '/' ∉ c.data) :
    router.matching ("tables/" ++ t ++ "/columns/" ++ c) =
      [({ pattern := "tables/:table/columns/:column", handler := columnHandler },
        ⟨[("table", t), ("column", c)]⟩)] := by
  have hp := pieces_column t c hst hsc
  rw [matching_unfold]
  have h1 := parse_eq_none_of_pieces_column "" _ _ _ _ _ (Or.inl rfl) hp
  have h2 := parse_eq_none_of_pieces_column "tables/:table" _ _ _ _ _ (Or.inr rfl) hp
  have h3 : Grapnel.parse "tables/:table/columns/:column"
      ("tables/" ++ t ++ "/columns/" ++ c) = some ⟨[("table", t), ("column", c)]⟩ :=
    (parse_column_iff _ _).2 ⟨t.data, c.data, data_ne_nil t ht, data_ne_nil c hc, hp, rfl⟩
  simp [h1, h2, h3]

theorem runHandlers_single (r : Route) (req : Request) (document : Document) :
    runHandlers [(r, req)] document = r.handler req document := by
  simp only [runHandlers]
  cases r.handler req document <;> rfl

theorem tableHandler_eq (t : String) (document : Document) :
    tableHandler ⟨[("table", t)]⟩ document =
      React.render { component := Component.TableApp, props := [("table", Value.str t)] }
        (content_div document) document := by
  simp [tableHandler, Request.param, List.lookup]

theorem columnHandler_eq (t c : String) (document : Document) :
    columnHandler ⟨[("table", t), ("column", c)]⟩ document =
      React.render
        { component := Component.ColumnApp,
          props := [("table", Value.str t), ("column", Value.str c)] }
        (content_div document) document := by
  have h : ("column" == "table") = false := by decide
  simp [columnHandler, Request.param, List.lookup, h]

theorem navigate_root (document : Document) :
    router.navigate "" document =
      React.render { component := Component.SchemaApp, props := [] }
        (content_div document) document := by
  unfold Grapnel.navigate
  rw [matching_root, runHandlers_single]
  rfl

theorem navigate_table (t : String) (ht : t ≠ "") (hs : '/' ∉ t.data) (document : Document) :
    router.navigate ("tables/" ++ t) document =
      React.render { component := Component.TableApp, props := [("table", Value.str t)] }
        (content_div document) document := by
  unfold Grapnel.navigate
  rw [matching_table t ht hs, runHandlers_single]
  exact tableHandler_eq t document

theorem navigate_column (t c : String) (ht : t ≠ "") (hc : c ≠ "")
    (hst : '/' ∉ t.data) (hsc : '/' ∉ c.data) (document : Document) :
    router.navigate ("tables/" ++ t ++ "/columns/" ++ c) document =
      React.render
        { component := Component.ColumnApp,
          props := [("table", Value.str t), ("column", Value.str c)] }
        (content_div document) document := by
  unfold Grapnel.navigate
  rw [matching_column t c ht hc hst hsc, runHandlers_single]
  exact columnHandler_eq t c document

/-- A navigation either matches nothing and returns the document as it was,
or performs one render call whose element depends on the path alone. -/
theorem navigate_cases (path : String) :
    (router.matching path = [] ∧ ∀ document, router.navigate path document = Except.ok document) ∨
    (router.matching path ≠ [] ∧ ∃ e : Element, ∀ document,
      router.navigate path document = React.render e (content_div document) document) := by
  rcases matching_cases path with h | ⟨rfl, h⟩ | ⟨t, ht, hs, rfl, h⟩ |
    ⟨t, c, ht, hc, hst, hsc, rfl, h⟩
  · left
    refine ⟨h, fun document => ?_⟩
    unfold Grapnel.navigate
    rw [h]
    rfl
  · right
    exact ⟨by rw [h]; simp, _, navigate_root⟩
  · right
    exact ⟨by rw [h]; simp, _, navigate_table t ht hs⟩
  · right
    exact ⟨by rw [h]; simp, _, navigate_column t c ht hc hst hsc⟩

theorem fired_eq_nil_iff (path : String) : router.fired path = [] ↔ router.matching path = [] := by
  simp [Grapnel.fired]

/-! ## Sequences of navigation events -/

theorem navigate_present (path : String) (document : Document) (c : Nat)
    (hc : content_div document = some c) :
    ∃ d, router.navigate path document = Except.ok d ∧ content_div d = some c ∧
      (∀ j, j ≠ c → d.nodes.get? j = document.nodes.get? j) ∧
      (d = document ∨ ∃ e, d.viewsAt c = some [e]) := by
  rcases navigate_cases path with ⟨_, h⟩ | ⟨_, e, h⟩
  · exact ⟨document, h document, hc, fun _ _ => rfl, Or.inl rfl⟩
  · rcases render_present e document c hc with ⟨d, h1, h2, h3, h4⟩
    exact ⟨d, by rw [h document, h1], h2, h4, Or.inr ⟨e, h3⟩⟩

theorem run_present (s : List String) (document : Document) (c : Nat)
    (hc : content_div document = some c) :
    ∃ d, router.run s document = Except.ok d ∧ content_div d = some c ∧
      (∀ j, j ≠ c → d.nodes.get? j = document.nodes.get? j) ∧
      (d.viewsAt c = document.viewsAt c ∨ ∃ e, d.viewsAt c = some [e]) := by
  induction s generalizing document with
  | nil => exact ⟨document, rfl, hc, fun _ _ => rfl, Or.inl rfl⟩
  | cons p rest ih =>
    rcases navigate_present p document c hc with ⟨d1, h1, h2, h3, h4⟩
    rcases ih d1 h2 with ⟨d2, k1, k2, k3, k4⟩
    refine ⟨d2, ?_, k2, ?_, ?_⟩
    · simp only [Grapnel.run, h1]
      exact k1
    · intro j hj
      rw [k3 j hj, h3 j hj]
    · rcases k4 with k4 | k4
      · rcases h4 with h4 | h4
        · left
          rw [k4, h4]
        · right
          rw [k4]
          exact h4
      · exact Or.inr k4

theorem run_append_single (s : List String) (p : String) (document : Document) :
    router.run (s ++ [p]) document =
      match router.run s document with
      | Except.error f => Except.error f
      | Except.ok d => router.navigate p d := by
  induction s generalizing document with
  | nil =>
    simp only [List.nil_append, Grapnel.run]
    cases router.navigate p document <;> rfl
  | cons q rest ih =>
    simp only [List.cons_append, Grapnel.run]
    cases router.navigate q document with
    | error f => rfl
    | ok d => exact ih d

/-- After any events, a navigation matching a route leaves exactly the view
its render call was given in the container. -/
theorem run_then_matched (s : List String) (p : String) (e : Element)
    (he : ∀ document, router.navigate p document =
      React.render e (content_div document) document)
    (document : Document) (c : Nat) (hc : content_div document = some c) :
    ∃ d, router.run (s ++ [p]) document = Except.ok d ∧ content_div d = some c ∧
      d.viewsAt c = some [e] ∧ mounted d = some [e] ∧
      (∀ j, j ≠ c → d.nodes.get? j = document.nodes.get? j) := by
  rcases run_present s document c hc with ⟨d1, h1, h2, h3, _⟩
  rcases render_present e d1 c h2 with ⟨d2, k1, k2, k3, k4⟩
  refine ⟨d2, ?_, k2, k3, ?_, ?_⟩
  · rw [run_append_single, h1]
    simp only
    rw [he d1, k1]
  · simp [mounted, k2, k3]
  · intro j hj
    rw [k4 j hj, h3 j hj]

/-! ## The claims -/

/-- Claim C1: for every table name `t` that is one non-empty path segment,
navigating to `tables/t` runs the handler registered for `tables/:table` and
no other, and that handler renders TableApp with the single prop `table = t`
into the content container. -/
theorem table_path_mounts_table_view (t : String) (ht : t ≠ "") (hs : '/' ∉ t.data)
    (document : Document) :
    router.matching ("tables/" ++ t) =
      [({ pattern := "tables/:table", handler := tableHandler }, ⟨[("table", t)]⟩)] ∧
    router.navigate ("tables/" ++ t) document = tableHandler ⟨[("table", t)]⟩ document ∧
    tableHandler ⟨[("table", t)]⟩ document =
      React.render { component := Component.TableApp, props := [("table", Value.str t)] }
        (content_div document) document ∧
    (∀ c, content_div document = some c →
      ∃ d, router.navigate ("tables/" ++ t) document = Except.ok d ∧
        mounted d =
          some [{ component := Component.TableApp, props := [("table", Value.str t)] }]) := by
  refine ⟨matching_table t ht hs, ?_, tableHandler_eq t document, ?_⟩
  · rw [navigate_table t ht hs, tableHandler_eq]
  · intro c hc
    rcases run_then_matched [] _ _ (navigate_table t ht hs) document c hc with
      ⟨d, h1, _, _, h4, _⟩
    refine ⟨d, ?_, h4⟩
    rw [run_append_single] at h1
    exact h1

theorem table_path_mounts_table_view_witness :
    "orders" ≠ "" ∧ '/' ∉ "orders".data ∧
    router.matching ("tables/" ++ "orders") =
      [({ pattern := "tables/:table", handler := tableHandler }, ⟨[("table", "orders")]⟩)] ∧
    ∃ d, router.navigate ("tables/" ++ "orders") ⟨[⟨"content", []⟩]⟩ = Except.ok d ∧
      mounted d =
        some [{ component := Component.TableApp, props := [("table", Value.str "orders")] }] :=
  ⟨by decide, by decide,
    (table_path_mounts_table_view "orders" (by decide) (by decide) ⟨[⟨"content", []⟩]⟩).1,
    (table_path_mounts_table_view "orders" (by decide) (by decide) ⟨[⟨"content", []⟩]⟩).2.2.2
      0 (by decide)⟩

/-- Claim C2: for every pair `t`, `c` of non-empty path segments, navigating to
`tables/t/columns/c` runs the handler registered for
`tables/:table/columns/:column` and no other, and that handler renders
ColumnApp with `table = t` and `column = c`, not swapped, into the content
container. -/
theorem column_path_mounts_column_view (t c : String) (ht : t ≠ "") (hc : c ≠ "")
    (hst : '/' ∉ t.data) (hsc : '/' ∉ c.data) (document : Document) :
    router.matching ("tables/" ++ t ++ "/columns/" ++ c) =
      [({ pattern := "tables/:table/columns/:column", handler := columnHandler },
        ⟨[("table", t), ("column", c)]⟩)] ∧
    router.navigate ("tables/" ++ t ++ "/columns/" ++ c) document =
      columnHandler ⟨[("table", t), ("column", c)]⟩ document ∧
    columnHandler ⟨[("table", t), ("column", c)]⟩ document =
      React.render
        { component := Component.ColumnApp,
          props := [("table", Value.str t), ("column", Value.str c)] }
        (content_div document) document ∧
    (∀ i, content_div document = some i →
      ∃ d, router.navigate ("tables/" ++ t ++ "/columns/" ++ c) document = Except.ok d ∧
        mounted d =
          some [{ component := Component.ColumnApp,
                  props := [("table", Value.str t), ("column", Value.str c)] }]) := by
  refine ⟨matching_column t c ht hc hst hsc, ?_, columnHandler_eq t c document, ?_⟩
  · rw [navigate_column t c ht hc hst hsc, columnHandler_eq]
  · intro i hi
    rcases run_then_matched [] _ _ (navigate_column t c ht hc hst hsc) document i hi with
      ⟨d, h1, _, _, h4, _⟩
    refine ⟨d, ?_, h4⟩
    rw [run_append_single] at h1
    exact h1

theorem column_path_mounts_column_view_witness :
    "orders" ≠ "" ∧ "total" ≠ "" ∧ '/' ∉ "orders".data ∧ '/' ∉ "total".data ∧
    router.matching ("tables/" ++ "orders" ++ "/columns/" ++ "total") =
      [({ pattern := "tables/:table/columns/:column", handler := columnHandler },
        ⟨[("table", "orders"), ("column", "total")]⟩)] ∧
    ∃ d, router.navigate ("tables/" ++ "orders" ++ "/columns/" ++ "total")
        ⟨[⟨"content", []⟩]⟩ = Except.ok d ∧
      mounted d =
        some [{ component := Component.ColumnApp,
                props := [("table", Value.str "orders"), ("column", Value.str "total")] }] :=
  ⟨by decide, by decide, by decide, by decide,
    (column_path_mounts_column_view "orders" "total" (by decide) (by decide) (by decide)
      (by decide) ⟨[⟨"content", []⟩]⟩).1,
    (column_path_mounts_column_view "orders" "total" (by decide) (by decide) (by decide)
      (by decide) ⟨[⟨"content", []⟩]⟩).2.2.2 0 (by decide)⟩

/-- Claim C3: navigating to the root (empty) path runs the handler registered
for the empty pattern and no other, and that handler renders SchemaApp with no
props into the content container, whatever request it is given. -/
theorem root_path_mounts_schema_view (req : Request) (document : Document) :
    router.matching "" = [({ pattern := "", handler := schemaHandler }, ⟨[]⟩)] ∧
    router.navigate "" document = schemaHandler ⟨[]⟩ document ∧
    schemaHandler req document =
      React.render { component := Component.SchemaApp, props := [] }
        (content_div document) document ∧
    (∀ c, content_div document = some c →
      ∃ d, router.navigate "" document = Except.ok d ∧
        mounted d = some [{ component := Component.SchemaApp, props := [] }]) := by
  refine ⟨matching_root, ?_, rfl, ?_⟩
  · rw [navigate_root]
    rfl
  · intro c hc
    rcases run_then_matched [] _ _ navigate_root document c hc with ⟨d, h1, _, _, h4, _⟩
    refine ⟨d, ?_, h4⟩
    rw [run_append_single] at h1
    exact h1

theorem root_path_mounts_schema_view_witness :
    ∃ d, router.navigate "" ⟨[⟨"header", []⟩, ⟨"content", []⟩]⟩ = Except.ok d ∧
      mounted d = some [{ component := Component.SchemaApp, props := [] }] :=
  (root_path_mounts_schema_view ⟨[("table", "ignored")]⟩
    ⟨[⟨"header", []⟩, ⟨"content", []⟩]⟩).2.2.2 1 (by decide)

/-- Claim C4: starting from a content container that holds at most one view,
after every sequence of navigation events the container holds at most one
view; and after a navigation that matches a route, whatever came before, it
holds exactly the view that navigation rendered, the earlier view being
replaced. -/
theorem container_holds_one_view (document : Document) (c : Nat)
    (hc : content_div document = some c)
    (h0 : ∀ vs, document.viewsAt c = some vs → vs.length ≤ 1) :
    (∀ s : List String, ∃ d vs, router.run s document = Except.ok d ∧
      content_div d = some c ∧ d.viewsAt c = some vs ∧ vs.length ≤ 1) ∧
    (∀ (s : List String) (p : String), router.fired p ≠ [] →
      ∃ e d, (∀ d0, router.navigate p d0 = React.render e (content_div d0) d0) ∧
        router.run (s ++ [p]) document = Except.ok d ∧ d.viewsAt c = some [e]) := by
  constructor
  · intro s
    rcases run_present s document c hc with ⟨d, h1, h2, _, h4⟩
    rcases h4 with h4 | ⟨e, h4⟩
    · have hlt : c < document.nodes.length :=
        findNode_lt _ _ _ (by simpa [content_div, Document.getElementById] using hc)
      have hv : ∃ vs, document.viewsAt c = some vs := by
        simp [Document.viewsAt, List.getElem?_eq_getElem hlt]
      rcases hv with ⟨vs, hv⟩
      exact ⟨d, vs, h1, h2, by rw [h4, hv], h0 vs hv⟩
    · exact ⟨d, [e], h1, h2, h4, by simp⟩
  · intro s p hp
    rcases navigate_cases p with ⟨hm, _⟩ | ⟨_, e, he⟩
    · exact absurd ((fired_eq_nil_iff p).2 hm) hp
    · rcases run_then_matched s p e he document c hc with ⟨d, h1, _, h3, _, _⟩
      exact ⟨e, d, he, h1, h3⟩

theorem container_holds_one_view_witness :
    content_div ⟨[⟨"content", [⟨Component.SchemaApp, []⟩]⟩]⟩ = some 0 ∧
    (∃ d vs, router.run ["tables/orders", "nowhere", ""]
        ⟨[⟨"content", [⟨Component.SchemaApp, []⟩]⟩]⟩ = Except.ok d ∧
      content_div d = some 0 ∧ d.viewsAt 0 = some vs ∧ vs.length ≤ 1) ∧
    (∃ e d, (∀ d0, router.navigate "tables/orders" d0 =
        React.render e (content_div d0) d0) ∧
      router.run ([""] ++ ["tables/orders"])
        ⟨[⟨"content", [⟨Component.SchemaApp, []⟩]⟩]⟩ = Except.ok d ∧
      d.viewsAt 0 = some [e]) :=
  ⟨by decide,
    (container_holds_one_view ⟨[⟨"content", [⟨Component.SchemaApp, []⟩]⟩]⟩ 0 (by decide)
      (by intro vs h; cases h; decide)).1 ["tables/orders", "nowhere", ""],
    (container_holds_one_view ⟨[⟨"content", [⟨Component.SchemaApp, []⟩]⟩]⟩ 0 (by decide)
      (by intro vs h; cases h; decide)).2 [""] "tables/orders" (by decide)⟩

/-- Claim C5: whenever a path matches `tables/:table` or
`tables/:table/columns/:column`, the path is literally `tables/` followed by
the value (and `/columns/` followed by the second value), and the props handed
to TableApp and ColumnApp are exactly those strings, character for character;
this holds for values with spaces, percent signs, percent-encoded sequences,
dots and non-ASCII letters alike. -/
theorem params_forwarded_verbatim :
    (∀ (path : String) (req : Request), Grapnel.parse "tables/:table" path = some req →
      ∃ v : String, path = "tables/" ++ v ∧ req.param "table" = Value.str v ∧
        ∀ document, router.navigate path document =
          React.render { component := Component.TableApp, props := [("table", Value.str v)] }
            (content_div document) document) ∧
    (∀ (path : String) (req : Request),
      Grapnel.parse "tables/:table/columns/:column" path = some req →
      ∃ v w : String, path = "tables/" ++ v ++ "/columns/" ++ w ∧
        req.param "table" = Value.str v ∧ req.param "column" = Value.str w ∧
        ∀ document, router.navigate path document =
          React.render
            { component := Component.ColumnApp,
              props := [("table", Value.str v), ("column", Value.str w)] }
            (content_div document) document) ∧
    (∀ document, router.navigate "tables/My Orders%20.v2 é/columns/ A%2Fb.C " document =
      React.render
        { component := Component.ColumnApp,
          props := [("table", Value.str "My Orders%20.v2 é"),
                    ("column", Value.str " A%2Fb.C ")] }
        (content_div document) document) := by
  refine ⟨?_, ?_, ?_⟩
  · intro path req h
    rcases (parse_table_iff _ _).1 h with ⟨t, ht, hs, rfl⟩
    have hp := path_of_pieces_two path t hs
    have hn : '/' ∉ (String.mk t).data := by
      have := splitPath_pieces_no_slash path.data t (by rw [hs]; simp)
      simpa using this
    have hne : String.mk t ≠ "" := fun e => ht (congrArg String.data e)
    refine ⟨String.mk t, hp, by simp [Request.param, List.lookup], ?_⟩
    intro document
    rw [hp]
    exact navigate_table _ hne hn document
  · intro path req h
    rcases (parse_column_iff _ _).1 h with ⟨t, c, ht, hc, hs, rfl⟩
    have hp := path_of_pieces_four path t c hs
    have hnt : '/' ∉ (String.mk t).data := by
      have := splitPath_pieces_no_slash path.data t (by rw [hs]; simp)
      simpa using this
    have hnc : '/' ∉ (String.mk c).data := by
      have := splitPath_pieces_no_slash path.data c (by rw [hs]; simp)
      simpa using this
    have hnet : String.mk t ≠ "" := fun e => ht (congrArg String.data e)
    have hnec : String.mk c ≠ "" := fun e => hc (congrArg String.data e)
    have hk : ("column" == "table") = false := by decide
    refine ⟨String.mk t, String.mk c, hp, by simp [Request.param, List.lookup],
      by simp [Request.param, List.lookup, hk], ?_⟩
    intro document
    rw [hp]
    exact navigate_column _ _ hnet hnec hnt hnc document
  · intro document
    exact navigate_column "My Orders%20.v2 é" " A%2Fb.C " (by decide) (by decide)
      (by decide) (by decide) document

theorem params_forwarded_verbatim_witness :
    Grapnel.parse "tables/:table" "tables/50%25 off" = some ⟨[("table", "50%25 off")]⟩ ∧
    ∃ v : String, "tables/50%25 off" = "tables/" ++ v ∧
      (⟨[("table", "50%25 off")]⟩ : Request).param "table" = Value.str v ∧
      ∀ document, router.navigate "tables/50%25 off" document =
        React.render { component := Component.TableApp, props := [("table", Value.str v)] }
          (content_div document) document :=
  ⟨by decide, params_forwarded_verbatim.1 "tables/50%25 off" ⟨[("table", "50%25 off")]⟩
    (by decide)⟩

/-- Claim C6: for every path at most one of the three registered patterns
matches, so one navigation event runs at most one handler and makes at most
one render call; a path `tables/t/columns/c` never matches `tables/:table`. -/
theorem at_most_one_handler_runs :
    (∀ path : String,
      ((["", "tables/:table", "tables/:table/columns/:column"].filter
        fun pattern => (Grapnel.parse pattern path).isSome).length ≤ 1) ∧
      (router.matching path).length ≤ 1 ∧ (router.fired path).length ≤ 1) ∧
    (∀ (path : String) (document : Document),
      router.navigate path document = Except.ok document ∨
      ∃ e, router.navigate path document = React.render e (content_div document) document) ∧
    (∀ t c : String,
      Grapnel.parse "tables/:table" ("tables/" ++ t ++ "/columns/" ++ c) = none ∧
      ∀ m ∈ router.fired ("tables/" ++ t ++ "/columns/" ++ c), m.1 ≠ "tables/:table") := by
  have hnone : ∀ t c : String,
      Grapnel.parse "tables/:table" ("tables/" ++ t ++ "/columns/" ++ c) = none := by
    intro t c
    cases h : Grapnel.parse "tables/:table" ("tables/" ++ t ++ "/columns/" ++ c) with
    | none => rfl
    | some r =>
      exfalso
      rcases (parse_table_iff _ _).1 h with ⟨x, _, hs, _⟩
      have hx : '/' ∉ x := splitPath_pieces_no_slash _ x (by rw [hs]; simp)
      have hp := congrArg String.data (path_of_pieces_two _ x hs)
      simp only [String.data_append] at hp
      have hx2 : x = t.data ++ ("/columns/".data ++ c.data) := by
        have : "tables/".data ++ (t.data ++ ("/columns/".data ++ c.data)) =
            "tables/".data ++ x := by simpa [List.append_assoc] using hp
        exact (List.append_cancel_left this).symm
      apply hx
      rw [hx2]
      simp
  refine ⟨?_, ?_, ?_⟩
  · intro path
    have hm : (router.matching path).length ≤ 1 := by
      rcases matching_cases path with h | ⟨_, h⟩ | ⟨_, _, _, _, h⟩ | ⟨_, _, _, _, _, _, _, h⟩ <;>
        simp [h]
    refine ⟨?_, hm, by simpa [Grapnel.fired] using hm⟩
    have hu := matching_unfold path
    rw [hu] at hm
    cases h1 : Grapnel.parse "" path <;> cases h2 : Grapnel.parse "tables/:table" path <;>
      cases h3 : Grapnel.parse "tables/:table/columns/:column" path <;>
      simp [h1, h2, h3, List.filter] at hm ⊢
  · intro path document
    rcases navigate_cases path with ⟨_, h⟩ | ⟨_, e, h⟩
    · exact Or.inl (h document)
    · exact Or.inr ⟨e, h document⟩
  · intro t c
    refine ⟨hnone t c, ?_⟩
    intro m hm hpat
    have hu := matching_unfold ("tables/" ++ t ++ "/columns/" ++ c)
    simp only [Grapnel.fired, hu, hnone t c] at hm
    cases h1 : Grapnel.parse "" ("tables/" ++ t ++ "/columns/" ++ c) <;>
      cases h3 : Grapnel.parse "tables/:table/columns/:column"
        ("tables/" ++ t ++ "/columns/" ++ c) <;>
      simp [h1, h3] at hm
    · have hk : m.1 = "tables/:table/columns/:column" := by rw [hm]
      rw [hk] at hpat
      exact absurd hpat (by decide)
    · have hk : m.1 = "" := by rw [hm]
      rw [hk] at hpat
      exact absurd hpat (by decide)
    · rcases hm with hm | hm
      · have hk : m.1 = "" := by rw [hm]
        rw [hk] at hpat
        exact absurd hpat (by decide)
      · have hk : m.1 = "tables/:table/columns/:column" := by rw [hm]
        rw [hk] at hpat
        exact absurd hpat (by decide)

theorem at_most_one_handler_runs_witness :
    (router.fired "tables/t/columns/c").length ≤ 1 ∧
    Grapnel.parse "tables/:table" ("tables/" ++ "t" ++ "/columns/" ++ "c") = none :=
  ⟨(at_most_one_handler_runs.1 "tables/t/columns/c").2.2,
    (at_most_one_handler_runs.2.2 "t" "c").1⟩

/-- Claim C7: a path that matches none of the three patterns runs no handler
and leaves the document, and so the mounted view, exactly as it was, without
a fault; the paths `tables`, `tables/`, `columns/x`, `tables/t/columns` and
`tables/t/columns/c/extra` are such paths. -/
theorem unmatched_path_does_nothing :
    (∀ (path : String) (document : Document), router.fired path = [] →
      router.matching path = [] ∧ router.navigate path document = Except.ok document) ∧
    router.fired "tables" = [] ∧ router.fired "tables/" = [] ∧
    router.fired "columns/x" = [] ∧ router.fired "tables/t/columns" = [] ∧
    router.fired "tables/t/columns/c/extra" = [] := by
  refine ⟨?_, by decide, by decide, by decide, by decide, by decide⟩
  intro path document h
  have hm := (fired_eq_nil_iff path).1 h
  refine ⟨hm, ?_⟩
  unfold Grapnel.navigate
  rw [hm]
  rfl

theorem unmatched_path_does_nothing_witness :
    router.fired "tables/t/columns" = [] ∧
    router.navigate "tables/t/columns"
        ⟨[⟨"content", [⟨Component.TableApp, [("table", Value.str "t")]⟩]⟩]⟩ =
      Except.ok ⟨[⟨"content", [⟨Component.TableApp, [("table", Value.str "t")]⟩]⟩]⟩ :=
  ⟨by decide,
    (unmatched_path_does_nothing.1 "tables/t/columns"
      ⟨[⟨"content", [⟨Component.TableApp, [("table", Value.str "t")]⟩]⟩]⟩ (by decide)).2⟩

/-- Claim C8: when the document has no element with id `content`, each of the
three handlers hands the absent container to the render call as it is, and the
handler's result, like that of a navigation that runs it, is the render call's
fault and not a mount. -/
theorem absent_container_faults (document : Document) (req : Request)
    (h : content_div document = none) :
    (schemaHandler req document =
        React.render { component := Component.SchemaApp, props := [] } none document ∧
      tableHandler req document =
        React.render { component := Component.TableApp, props := [("table", req.param "table")] }
          none document ∧
      columnHandler req document =
        React.render
          { component := Component.ColumnApp,
            props := [("table", req.param "table"), ("column", req.param "column")] }
          none document) ∧
    (schemaHandler req document = Except.error Fault.targetContainerAbsent ∧
      tableHandler req document = Except.error Fault.targetContainerAbsent ∧
      columnHandler req document = Except.error Fault.targetContainerAbsent) ∧
    (∀ path : String, router.fired path ≠ [] →
      router.navigate path document = Except.error Fault.targetContainerAbsent) := by
  refine ⟨⟨?_, ?_, ?_⟩, ⟨?_, ?_, ?_⟩, ?_⟩
  · simp [schemaHandler, h]
  · simp [tableHandler, h]
  · simp [columnHandler, h]
  · simp [schemaHandler, h, React.render]
  · simp [tableHandler, h, React.render]
  · simp [columnHandler, h, React.render]
  · intro path hp
    rcases navigate_cases path with ⟨hm, _⟩ | ⟨_, e, he⟩
    · exact absurd ((fired_eq_nil_iff path).2 hm) hp
    · rw [he document, h]
      rfl

theorem absent_container_faults_witness :
    content_div ⟨[⟨"sidebar", []⟩]⟩ = none ∧
    tableHandler ⟨[("table", "orders")]⟩ ⟨[⟨"sidebar", []⟩]⟩ =
      Except.error Fault.targetContainerAbsent ∧
    router.navigate "tables/orders" ⟨[⟨"sidebar", []⟩]⟩ =
      Except.error Fault.targetContainerAbsent :=
  ⟨by decide,
    (absent_container_faults ⟨[⟨"sidebar", []⟩]⟩ ⟨[("table", "orders")]⟩ (by decide)).2.1.2.1,
    (absent_container_faults ⟨[⟨"sidebar", []⟩]⟩ ⟨[("table", "orders")]⟩ (by decide)).2.2
      "tables/orders" (by decide)⟩

/-- Claim C9: the view mounted after a sequence of navigation events that ends
with a matching path depends on that last path alone: one element `e`, fixed
by the path, is the mounted view after every such sequence from every document
that has the container; and the events change no node other than the
container. -/
theorem mounted_view_history_independent (p : String) (hp : router.fired p ≠ []) :
    ∃ e : Element, ∀ (s : List String) (document : Document) (c : Nat),
      content_div document = some c →
      ∃ d, router.run (s ++ [p]) document = Except.ok d ∧ content_div d = some c ∧
        mounted d = some [e] ∧
        (∀ j, j ≠ c → d.nodes.get? j = document.nodes.get? j) := by
  rcases navigate_cases p with ⟨hm, _⟩ | ⟨_, e, he⟩
  · exact absurd ((fired_eq_nil_iff p).2 hm) hp
  · refine ⟨e, ?_⟩
    intro s document c hc
    rcases run_then_matched s p e he document c hc with ⟨d, h1, h2, _, h4, h5⟩
    exact ⟨d, h1, h2, h4, h5⟩

theorem mounted_view_history_independent_witness :
    router.fired "tables/orders" ≠ [] ∧
    ∃ e : Element, ∀ (s : List String) (document : Document) (c : Nat),
      content_div document = some c →
      ∃ d, router.run (s ++ ["tables/orders"]) document = Except.ok d ∧
        content_div d = some c ∧ mounted d = some [e] ∧
        (∀ j, j ≠ c → d.nodes.get? j = document.nodes.get? j) :=
  ⟨by decide, mounted_view_history_independent "tables/orders" (by decide)⟩

end Orca
